import Mathlib

/-!
Shallow embedding of the Agri_Sight_AI drone-edge analysis pipeline
(`drone_edge/src`): the detection data model (`detection_formatter.py`),
the video source (`video_processor.py`), the inference engine
(`inference_engine.py`), the local inference pipeline
(`run_inference_local.py`), the Firebase uploader and pipeline
(`firebase_uploader.py`, `run_inference_firebase.py`), and the job
controller (`api_server.py`).  Machine integers do not overflow in any
of the modelled code paths, so counters are `Nat`; latencies, confidences
and progress percentages are `Rat`; fallible calls return `Except` or
`Option`.
-/

namespace AgriSight

/-- A decoded video frame: `height`, `width` mirror `frame.shape[0]`,
`frame.shape[1]`; `pixels` abstracts the pixel payload. -/
structure Frame where
  height : Nat
  width : Nat
  pixels : Nat
deriving Repr, DecidableEq

/-- `bbox` dict built in `InferenceEngine._parse_results`: the four
`int(...)` pixel coordinates. -/
structure BBox where
  x1 : Int
  y1 : Int
  x2 : Int
  y2 : Int
deriving Repr, DecidableEq

/-- One detection dict as produced by `InferenceEngine._parse_results`. -/
structure Detection where
  class_id : Nat
  class_name : String
  confidence : Rat
  bbox : BBox
deriving Repr, DecidableEq

/-- Detection event dict from `DetectionFormatter.format_detection_event`.
`session_id` is `none` as formatted; the pipelines attach the session id
afterwards (`event['session_id'] = session_id` in `run_inference_local.py`,
the `{**event, 'session_id': ...}` merge in `firebase_uploader.py`). -/
structure DetectionEvent where
  frame_id : Nat
  timestamp : String
  width : Nat
  height : Nat
  detection_count : Nat
  detections : List Detection
  session_id : Option String
deriving Repr, DecidableEq

/-- `DetectionFormatter.format_detection_event(frame_number, timestamp,
detections, frame_shape)`: `image_size` takes `frame_shape[1]` as width and
`frame_shape[0]` as height, `detection_count = len(detections)`. -/
def format_detection_event (frame_number : Nat) (timestamp : String)
    (detections : List Detection) (shape_h shape_w : Nat) : DetectionEvent :=
  { frame_id := frame_number
    timestamp := timestamp
    width := shape_w
    height := shape_h
    detection_count := detections.length
    detections := detections
    session_id := none }

/-! Section: VideoProcessor (`video_processor.py`)

The capture device is modelled by `cap`: `none` when absent, otherwise the
list of frames the backend will still deliver (finite for a file; for a
webcam the list holds whatever the device delivers before failing).
`total_frames` is the metadata count: `-1` for a webcam (set explicitly in
`_open_source`), `int(cap.get(CAP_PROP_FRAME_COUNT))` for a file.
`current_frame` counts successful `read_frame` calls. -/

structure VideoProcessor where
  cap : Option (List Frame)
  total_frames : Int
  current_frame : Nat
deriving Repr, DecidableEq

/-- Opening a video file whose container metadata reports `meta_total`
frames and whose decoder delivers `stream`. -/
def openFileSource (stream : List Frame) (meta_total : Int) : VideoProcessor :=
  { cap := some stream, total_frames := meta_total, current_frame := 0 }

/-- Opening a webcam (`_open_source`, webcam case): `total_frames = -1`. -/
def openWebcamSource (stream : List Frame) : VideoProcessor :=
  { cap := some stream, total_frames := -1, current_frame := 0 }

/-- `VideoProcessor.read_frame`: `(False, None)` when `cap is None` or the
backend has no frame left; on success `current_frame += 1`. -/
def read_frame (v : VideoProcessor) : (Bool × Option Frame) × VideoProcessor :=
  match v.cap with
  | none => ((false, none), v)
  | some [] => ((false, none), v)
  | some (f :: rest) =>
      ((true, some f),
        { cap := some rest, total_frames := v.total_frames,
          current_frame := v.current_frame + 1 })

/-- `VideoProcessor.get_progress`: `-1.0` when `total_frames <= 0`, else
`(current_frame / total_frames) * 100`. -/
def get_progress (v : VideoProcessor) : Rat :=
  if v.total_frames ≤ 0 then -1
  else ((v.current_frame : Rat) / (v.total_frames : Rat)) * 100

/-- Iterated `read_frame` (n attempted reads). -/
def readN : Nat → VideoProcessor → VideoProcessor
  | 0, v => v
  | n + 1, v => readN n (read_frame v).2

/-! Section: InferenceEngine (`inference_engine.py`, `_20260114172149` revision) -/

/-- One raw box of a YOLO result (`box.cls[0]`, `box.conf[0]`,
`box.xyxy[0]` after the `int(...)` casts). -/
structure RawBox where
  class_id : Nat
  conf : Rat
  x1 : Int
  y1 : Int
  x2 : Int
  y2 : Int
deriving Repr, DecidableEq

/-- Engine state: `class_names` from `model.names`, `inference_times` the
per-call latency list in milliseconds. -/
structure InferenceEngine where
  class_names : List String
  inference_times : List Rat
deriving Repr, DecidableEq

/-- `InferenceEngine._load_model` after a successful `YOLO(...)` load: the
warmup inference calls `self.model.predict` directly, its result is
discarded and no latency is appended, so `inference_times` is the empty
list from `__init__`. -/
def loadEngine (class_names : List String) : InferenceEngine :=
  { class_names := class_names, inference_times := [] }

/-- `InferenceEngine._parse_results`: `self.class_names[class_id]` raises
when the index is out of range, modelled by `Except.error`. -/
def parse_results (class_names : List String) (boxes : List RawBox) :
    Except String (List Detection) :=
  boxes.mapM (fun b =>
    match class_names[b.class_id]? with
    | none => Except.error "class index out of range"
    | some nm =>
        Except.ok
          { class_id := b.class_id, class_name := nm, confidence := b.conf,
            bbox := { x1 := b.x1, y1 := b.y1, x2 := b.x2, y2 := b.y2 } })

/-- `InferenceEngine.predict`: runs `self.model.predict` (modelled by
`rawModel`, which raises via `Except.error`), appends the measured latency
`lat`, then parses.  There is no `try/except` in `predict`: a raised
exception from the model call propagates to the caller. -/
def predict (e : InferenceEngine) (rawModel : Frame → Except String (List RawBox))
    (lat : Rat) (f : Frame) : Except String (InferenceEngine × List Detection) :=
  match rawModel f with
  | Except.error msg => Except.error msg
  | Except.ok boxes =>
      let e' : InferenceEngine :=
        { class_names := e.class_names,
          inference_times := e.inference_times ++ [lat] }
      match parse_results e.class_names boxes with
      | Except.error msg => Except.error msg
      | Except.ok dets => Except.ok (e', dets)

/-- `InferenceEngine.get_avg_inference_time`: mean of `inference_times`,
`0.0` when empty. -/
def get_avg_inference_time (e : InferenceEngine) : Rat :=
  if e.inference_times = [] then 0
  else e.inference_times.sum / e.inference_times.length

/-- `InferenceEngine.get_fps`: `1000.0 / avg if avg > 0 else 0.0`. -/
def get_fps (e : InferenceEngine) : Rat :=
  let avg := get_avg_inference_time e
  if avg > 0 then 1000 / avg else 0

/-! Section: Session records and the local file store -/

/-- The `session_data` dict of `run_inference_local.py` (also the durable
content of `output/current_session.json`). -/
structure SessionData where
  session_id : String
  start_time : String
  status : String
  video_path : String
  frame_count : Nat
  total_detections : Nat
  end_time : Option String
deriving Repr, DecidableEq

/-- Initial `session_data` (lines 95-102 of `run_inference_local.py`):
`status="active"`, zero counters, no end time. -/
def initialSession (sid start_ts video_path : String) : SessionData :=
  { session_id := sid, start_time := start_ts, status := "active",
    video_path := video_path, frame_count := 0, total_detections := 0,
    end_time := none }

/-- Well-known path of the current-detections file. -/
def detections_path : String := "output/current_detections.json"

/-- A filesystem update to the current-detections file.  `truncWrite`
models `open(path, 'w')` followed by `json.dump` (truncate then write in
place); `tempWriteRename` models writing the content to a temporary
location and renaming it over `path`. -/
inductive FsOp
  | truncWrite (path : String) (session_id : String) (events : List DetectionEvent)
  | tempWriteRename (tmpPath : String) (path : String) (session_id : String)
      (events : List DetectionEvent)
deriving Repr, DecidableEq

/-- Whether an update is an atomic temp-write-then-rename replace. -/
def FsOp.isAtomicReplace : FsOp → Bool
  | FsOp.truncWrite _ _ _ => false
  | FsOp.tempWriteRename _ _ _ _ => true

/-! Section: Local pipeline (`run_inference_local.py`) -/

/-- State of one local-mode run: the loop counters `frame_count` /
`total_detections`, the append-only `all_detections` list, the in-memory
`session_data` dict, the durable contents of `current_detections.json`
(`detFile`) and `current_session.json` (`sessFile`), and the ordered trace
`detOps` of updates applied to the current-detections file. -/
structure LocalPipeState where
  frame_count : Nat
  total_detections : Nat
  all_detections : List DetectionEvent
  session_data : SessionData
  detFile : Option (String × List DetectionEvent)
  sessFile : Option SessionData
  detOps : List FsOp
deriving Repr, DecidableEq

/-- Pipeline state right after the initial session write (lines 104-114):
the controller's `clear_data` has removed any previous detections file, and
the initial `session_data` has just been dumped to `current_session.json`. -/
def initLocalState (sid start_ts video_path : String) : LocalPipeState :=
  { frame_count := 0, total_detections := 0, all_detections := [],
    session_data := initialSession sid start_ts video_path,
    detFile := none,
    sessFile := some (initialSession sid start_ts video_path),
    detOps := [] }

/-- One pass of the local while-loop body for a successfully read frame
(lines 130-156 of `run_inference_local.py`): increment `frame_count`, run
`predict`, format the event, attach `session_id`, append to
`all_detections`, add the per-frame detection count, and overwrite
`current_detections.json` with the full list (an `open(..., 'w')` /
`json.dump`, i.e. a `truncWrite`).  `predict` gives the detections the
engine returns on each frame; `ts` gives the wall-clock ISO timestamp
observed at frame `n`. -/
def localStep (sid : String) (predict_fn : Frame → List Detection)
    (ts : Nat → String) (st : LocalPipeState) (f : Frame) : LocalPipeState :=
  let n := st.frame_count + 1
  let dets := predict_fn f
  let ev0 := format_detection_event n (ts n) dets f.height f.width
  let ev := { ev0 with session_id := some sid }
  let all := st.all_detections ++ [ev]
  { frame_count := n
    total_detections := st.total_detections + dets.length
    all_detections := all
    session_data := st.session_data
    detFile := some (sid, all)
    sessFile := st.sessFile
    detOps := st.detOps ++ [FsOp.truncWrite detections_path sid all] }

/-- The shared `while True: read_frame / break-on-failure / step` loop of
both pipeline scripts, with `fuel` bounding the number of loop iterations
the worker process performs before it is externally terminated (a
terminated worker simply stops mid-loop).  A run to natural exhaustion is
the special case `fuel ≥ stream length + 1`. -/
def pipelineLoop {σ : Type} (step : σ → Frame → σ) :
    Nat → VideoProcessor → σ → VideoProcessor × σ
  | 0, v, st => (v, st)
  | fuel + 1, v, st =>
      match read_frame v with
      | ((true, some f), v') => pipelineLoop step fuel v' (step st f)
      | (_, v') => (v', st)

/-- `VideoProcessor.release`: the capture handle is released;
`current_frame` is untouched. -/
def release (v : VideoProcessor) : VideoProcessor :=
  { cap := none, total_frames := v.total_frames, current_frame := v.current_frame }

/-- Session finalization of the local run (lines 200-207): the in-memory
`session_data` gets `status="completed"`, the final counters and an end
time, and is rewritten to `current_session.json`. -/
def localFinalize (end_ts : String) (st : LocalPipeState) : LocalPipeState :=
  let s := { st.session_data with
             status := "completed", frame_count := st.frame_count,
             total_detections := st.total_detections, end_time := some end_ts }
  { st with session_data := s, sessFile := some s }

/-- `run_inference_local.main` on a finite file source read to natural
exhaustion: open the source, loop until `read_frame` fails, release the
source, finalize the session.  Returns the released processor and the
final durable state. -/
def run_inference_local (sid start_ts end_ts video_path : String)
    (predict_fn : Frame → List Detection) (ts : Nat → String)
    (stream : List Frame) (meta_total : Int) :
    VideoProcessor × LocalPipeState :=
  let v0 := openFileSource stream meta_total
  let (v1, st) := pipelineLoop (localStep sid predict_fn ts)
    (stream.length + 1) v0 (initLocalState sid start_ts video_path)
  (release v1, localFinalize end_ts st)

/-- A local-mode run whose worker process is terminated (SIGTERM from
`stop-analysis`) after `k` completed loop iterations: the loop stops
mid-stream and neither `release` nor the finalization code ever runs. -/
def localRunStopped (sid start_ts video_path : String)
    (predict_fn : Frame → List Detection) (ts : Nat → String)
    (stream : List Frame) (meta_total : Int) (k : Nat) : LocalPipeState :=
  (pipelineLoop (localStep sid predict_fn ts) k
    (openFileSource stream meta_total)
    (initLocalState sid start_ts video_path)).2

/-! Section: Job controller (`api_server.py`, `_20260208013031` revision) -/

/-- The `current_analysis` global dict.  `process` is the stored
subprocess handle (`none` until the background thread spawns it). -/
structure AnalysisState where
  running : Bool
  session_id : Option String
  video_name : Option String
  start_time : Option String
  process : Option Nat
deriving Repr, DecidableEq

/-- The local output files the controller's `clear_data` and the read
endpoints touch. -/
structure LocalStore where
  detections_file : Option (String × List DetectionEvent)
  session_file : Option SessionData
deriving Repr, DecidableEq

/-- `clear_data` (local branch): unlink both files. -/
def clear_data (_store : LocalStore) : LocalStore :=
  { detections_file := none, session_file := none }

/-- Responses of `start_analysis`. -/
inductive StartResult
  | alreadyRunning
  | noVideoPath
  | notFound
  | started (session_id : String) (video_name : String)
deriving Repr, DecidableEq

/-- Session id generated by the controller (`api_server.start_analysis`,
line 216): the f-string `session_` followed by `int(time.time())`. -/
def controllerSessionId (now : Nat) : String := "session_" ++ toString now

/-- Session id generated by the local pipeline worker
(`run_inference_local.py`, line 74) from its own later clock read. -/
def localSessionId (now : Nat) : String := "local_" ++ toString now

/-- Session id generated by the Firebase pipeline worker
(`run_inference_firebase.py`, line 76). -/
def firebaseSessionId (now : Nat) : String := "inference_" ++ toString now

/-- `start_analysis` (lines 197-247): reject when `running` is already
true; validate the request; otherwise generate the session id, clear old
data, mark the state running and launch the worker in the background.
`fileExists` and `baseName` model `Path.exists` and `Path.name`; `now` is
`int(time.time())` and `nowIso` is `datetime.now().isoformat()`. -/
def start_analysis (st : AnalysisState) (store : LocalStore)
    (video_path : Option String) (fileExists : String → Bool)
    (baseName : String → String) (now : Nat) (nowIso : String) :
    AnalysisState × LocalStore × StartResult :=
  if st.running then (st, store, StartResult.alreadyRunning)
  else
    match video_path with
    | none => (st, store, StartResult.noVideoPath)
    | some p =>
        if fileExists p then
          let sid := controllerSessionId now
          let store' := clear_data store
          ({ running := true, session_id := some sid,
             video_name := some (baseName p), start_time := some nowIso,
             process := st.process }, store', StartResult.started sid (baseName p))
        else (st, store, StartResult.notFound)

/-- Responses of `stop_analysis`: `stopped` is the `success=True` reply,
`notStopped` the `success=False` "No analysis running" reply.  Neither is
an HTTP error. -/
inductive StopResult
  | stopped
  | notStopped
deriving Repr, DecidableEq

/-- `stop_analysis` (lines 261-272): terminate the stored process and
clear `running` only when a process handle is stored and `running` is
true; otherwise reply `success=False` and touch nothing. -/
def stop_analysis (st : AnalysisState) : AnalysisState × StopResult :=
  if st.process.isSome && st.running then
    ({ running := false, session_id := st.session_id,
       video_name := st.video_name, start_time := st.start_time,
       process := st.process }, StopResult.stopped)
  else (st, StopResult.notStopped)

/-- `get_detections` (`/detections` endpoint, lines 275-294): if the file
does not exist, reply `{session_id: null, detections: []}`; otherwise
return the file's content. -/
def get_detections (detFile : Option (String × List DetectionEvent)) :
    Option String × List DetectionEvent :=
  match detFile with
  | none => (none, [])
  | some (sid, evs) => (some sid, evs)

/-! Section: Firebase uploader and pipeline (`firebase_uploader.py`,
`run_inference_firebase.py`) -/

/-- In-memory state of `FirebaseUploader`: its stored `session_id` and the
`frame_count` / `total_detections` counters. -/
structure FirebaseUploader where
  session_id : String
  frame_count : Nat
  total_detections : Nat
deriving Repr, DecidableEq

/-- The durable session record at `/sessions/{session_id}`. -/
structure FBSessionRecord where
  session_id : String
  start_time : String
  status : String
  frame_count : Nat
  total_detections : Nat
  end_time : Option String
deriving Repr, DecidableEq

/-- `FirebaseUploader.__init__` plus `_init_session`: zero counters and an
`active` session record written to the database. -/
def initUploader (sid start_ts : String) : FirebaseUploader × FBSessionRecord :=
  ({ session_id := sid, frame_count := 0, total_detections := 0 },
   { session_id := sid, start_time := start_ts, status := "active",
     frame_count := 0, total_detections := 0, end_time := none })

/-- `FirebaseUploader.upload_detection_event`: push the event (merged with
`session_id`) to `/detections`; on success add `event['detection_count']`
to `total_detections` and return the generated key; a raised push failure
is caught and `None` is returned with the uploader unchanged.
`frame_count` is NOT touched here (only `upload_frame_summary` increments
it). -/
def upload_detection_event (u : FirebaseUploader) (ev : DetectionEvent)
    (pushResult : Option String) : FirebaseUploader × Option String :=
  match pushResult with
  | some key =>
      ({ session_id := u.session_id, frame_count := u.frame_count,
         total_detections := u.total_detections + ev.detection_count }, some key)
  | none => (u, none)

/-- `FirebaseUploader.end_session`: merge `status="completed"`, the end
time and the uploader's counters into the durable session record; a raised
update failure is caught and leaves the record unchanged. -/
def end_session (u : FirebaseUploader) (end_ts : String) (updateOk : Bool)
    (r : FBSessionRecord) : FBSessionRecord :=
  if updateOk then
    { session_id := r.session_id, start_time := r.start_time,
      status := "completed", frame_count := u.frame_count,
      total_detections := u.total_detections, end_time := some end_ts }
  else r

/-- Loop-visible state of one Firebase-mode run: the uploader, the loop's
local `frame_count` counter and the `all_events` backup list. -/
structure FBRunState where
  uploader : FirebaseUploader
  frame_count : Nat
  all_events : List DetectionEvent
deriving Repr, DecidableEq

/-- One pass of the Firebase while-loop body (lines 112-130 of
`run_inference_firebase.py`): increment the loop counter, predict, format,
`upload_detection_event`, append to the local backup.  The loop never
calls `upload_frame_summary`, so `uploader.frame_count` is never
incremented.  `pushResults n` is the outcome of the `push_data` call for
frame `n`. -/
def fbStep (predict_fn : Frame → List Detection) (ts : Nat → String)
    (pushResults : Nat → Option String) (st : FBRunState) (f : Frame) :
    FBRunState :=
  let n := st.frame_count + 1
  let dets := predict_fn f
  let ev := format_detection_event n (ts n) dets f.height f.width
  let (u', _key) := upload_detection_event st.uploader ev (pushResults n)
  { uploader := u', frame_count := n, all_events := st.all_events ++ [ev] }

/-- `run_inference_firebase.main` on a finite file source read to natural
exhaustion: init the uploader and session record, loop until `read_frame`
fails, then `end_session`.  Returns the final run state and the durable
session record. -/
def run_inference_firebase (sid start_ts end_ts : String)
    (predict_fn : Frame → List Detection) (ts : Nat → String)
    (pushResults : Nat → Option String) (updateOk : Bool)
    (stream : List Frame) (meta_total : Int) :
    FBRunState × FBSessionRecord :=
  let (u0, rec0) := initUploader sid start_ts
  let (_, st) := pipelineLoop (fbStep predict_fn ts pushResults)
    (stream.length + 1) (openFileSource stream meta_total)
    { uploader := u0, frame_count := 0, all_events := [] }
  (st, end_session st.uploader end_ts updateOk rec0)

/-! Section: Derived descriptions of a local run (used to state the theorems) -/

/-- The event the local loop builds for frame number `n` (formatted event
with the session id attached). -/
def mkLocalEvent (sid : String) (predict_fn : Frame → List Detection)
    (ts : Nat → String) (n : Nat) (f : Frame) : DetectionEvent :=
  { format_detection_event n (ts n) (predict_fn f) f.height f.width with
    session_id := some sid }

/-- The events the local loop appends for the frames `l`, when `base`
frames were already processed. -/
def eventsFrom (sid : String) (predict_fn : Frame → List Detection)
    (ts : Nat → String) : Nat → List Frame → List DetectionEvent
  | _, [] => []
  | base, f :: rest =>
      mkLocalEvent sid predict_fn ts (base + 1) f ::
        eventsFrom sid predict_fn ts (base + 1) rest

/-- The current-detections file updates the local loop performs for the
frames `l`, when `base` frames producing the events `acc` were already
processed. -/
def detWritesFrom (sid : String) (predict_fn : Frame → List Detection)
    (ts : Nat → String) : Nat → List DetectionEvent → List Frame → List FsOp
  | _, _, [] => []
  | base, acc, f :: rest =>
      let ev := mkLocalEvent sid predict_fn ts (base + 1) f
      FsOp.truncWrite detections_path sid (acc ++ [ev]) ::
        detWritesFrom sid predict_fn ts (base + 1) (acc ++ [ev]) rest

/-- Whether a current-detections update is a direct in-place overwrite of
the well-known path for session `sid` with a nonempty full list. -/
def FsOp.isDirectDetWrite (sid : String) : FsOp → Bool
  | FsOp.truncWrite p s evs =>
      p == detections_path && s == sid && evs.isEmpty == false
  | FsOp.tempWriteRename _ _ _ _ => false

/-! Section: Concrete example inputs -/

/-- Example detection (the spec's scenario detection, confidence 4/5
written as an already-normalized rational so that kernel reduction of
equality tests never has to normalize). -/
def exDetection : Detection :=
  { class_id := 0, class_name := "Early Blight",
    confidence := ⟨4, 5, by decide, by decide⟩,
    bbox := { x1 := 10, y1 := 20, x2 := 110, y2 := 120 } }

/-- Example 640x480 frame. -/
def exFrame : Frame := { height := 480, width := 640, pixels := 0 }

/-- Example ten-frame synthetic source, payloads 0..9. -/
def exStream10 : List Frame :=
  (List.range 10).map (fun i => { height := 480, width := 640, pixels := i })

/-- Example single-frame source whose frame produces one detection. -/
def exStream1 : List Frame := [{ height := 480, width := 640, pixels := 2 }]

/-- Example two-frame source. -/
def exStream2 : List Frame :=
  [{ height := 480, width := 640, pixels := 0 },
   { height := 480, width := 640, pixels := 1 }]

/-- Example detector output: one detection on payloads 2 and 6 (frames 3
and 7 of `exStream10`), none elsewhere. -/
def exPredict (f : Frame) : List Detection :=
  if f.pixels = 2 ∨ f.pixels = 6 then [exDetection] else []

/-- Example wall-clock timestamps. -/
def exTs (_n : Nat) : String := "2026-01-14T00:00:00"

/-- Example controller state with a running job and a stored subprocess
handle. -/
def exRunningState : AnalysisState :=
  { running := true, session_id := some "session_100",
    video_name := some "a.mp4", start_time := some "t0", process := some 7 }

/-- Example idle controller state (after a completed run). -/
def exIdleState : AnalysisState :=
  { running := false, session_id := some "session_100",
    video_name := some "a.mp4", start_time := some "t0", process := some 7 }

/-- Example local store holding leftovers of a previous run. -/
def exStore : LocalStore :=
  { detections_file := some ("local_99", []),
    session_file := some (initialSession "local_99" "t" "v.mp4") }

/-- A raw model call that raises (e.g. a CUDA/runtime failure inside
`self.model.predict`). -/
def failingRaw : Frame → Except String (List RawBox) :=
  fun _ => Except.error "inference failed"

/-- A raw model call that succeeds with no boxes. -/
def emptyRaw : Frame → Except String (List RawBox) :=
  fun _ => Except.ok []

/-! Section: Loop characterization lemmas -/

theorem pipelineLoop_snd {σ : Type} (step : σ → Frame → σ) :
    ∀ (fuel : Nat) (s : List Frame) (t : Int) (c : Nat) (st : σ),
      (pipelineLoop step fuel ⟨some s, t, c⟩ st).2 = (s.take fuel).foldl step st := by
  intro fuel
  induction fuel with
  | zero => intro s t c st; simp [pipelineLoop]
  | succ n ih =>
      intro s t c st
      cases s with
      | nil => simp [pipelineLoop, read_frame]
      | cons f rest => simp [pipelineLoop, read_frame, ih]

theorem pipelineLoop_fst {σ : Type} (step : σ → Frame → σ) :
    ∀ (fuel : Nat) (s : List Frame) (t : Int) (c : Nat) (st : σ),
      (pipelineLoop step fuel ⟨some s, t, c⟩ st).1 =
        ⟨some (s.drop fuel), t, c + min fuel s.length⟩ := by
  intro fuel
  induction fuel with
  | zero => intro s t c st; simp [pipelineLoop]
  | succ n ih =>
      intro s t c st
      cases s with
      | nil => simp [pipelineLoop, read_frame]
      | cons f rest =>
          simp [pipelineLoop, read_frame, ih, Nat.succ_min_succ]
          omega

theorem readN_file (t : Int) :
    ∀ (r : Nat) (s : List Frame) (c : Nat),
      readN r ⟨some s, t, c⟩ = ⟨some (s.drop r), t, c + min r s.length⟩ := by
  intro r
  induction r with
  | zero => intro s c; simp [readN]
  | succ n ih =>
      intro s c
      cases s with
      | nil => simp [readN, read_frame, ih]
      | cons f rest =>
          simp [readN, read_frame, ih, Nat.succ_min_succ]
          omega

theorem localStep_foldl_spec (sid : String) (predict_fn : Frame → List Detection)
    (ts : Nat → String) :
    ∀ (l : List Frame) (st : LocalPipeState),
      (l.foldl (localStep sid predict_fn ts) st).frame_count
          = st.frame_count + l.length ∧
      (l.foldl (localStep sid predict_fn ts) st).total_detections
          = st.total_detections + (l.map (fun f => (predict_fn f).length)).sum ∧
      (l.foldl (localStep sid predict_fn ts) st).all_detections
          = st.all_detections ++ eventsFrom sid predict_fn ts st.frame_count l ∧
      (l.foldl (localStep sid predict_fn ts) st).session_data = st.session_data ∧
      (l.foldl (localStep sid predict_fn ts) st).sessFile = st.sessFile ∧
      (l.foldl (localStep sid predict_fn ts) st).detOps
          = st.detOps ++
            detWritesFrom sid predict_fn ts st.frame_count st.all_detections l := by
  intro l
  induction l with
  | nil => intro st; simp [eventsFrom, detWritesFrom]
  | cons f rest ih =>
      intro st
      have h := ih (localStep sid predict_fn ts st f)
      simp only [List.foldl_cons]
      refine ⟨?_, ?_, ?_, ?_, ?_, ?_⟩
      · rw [h.1]; simp [localStep]; omega
      · rw [h.2.1]; simp [localStep]; omega
      · rw [h.2.2.1]; simp [localStep, eventsFrom, mkLocalEvent]
      · rw [h.2.2.2.1]; simp [localStep]
      · rw [h.2.2.2.2.1]; simp [localStep]
      · rw [h.2.2.2.2.2]; simp [localStep, detWritesFrom, mkLocalEvent]

theorem localStep_foldl_detFile (sid : String) (predict_fn : Frame → List Detection)
    (ts : Nat → String) :
    ∀ (l : List Frame) (st : LocalPipeState), l ≠ [] →
      (l.foldl (localStep sid predict_fn ts) st).detFile
        = some (sid, (l.foldl (localStep sid predict_fn ts) st).all_detections) := by
  intro l
  induction l with
  | nil => intro st h; exact absurd rfl h
  | cons f rest ih =>
      intro st _
      cases rest with
      | nil => simp [localStep]
      | cons g tail =>
          simpa using ih (localStep sid predict_fn ts st f) (by simp)

theorem eventsFrom_length (sid : String) (predict_fn : Frame → List Detection)
    (ts : Nat → String) :
    ∀ (base : Nat) (l : List Frame),
      (eventsFrom sid predict_fn ts base l).length = l.length := by
  intro base l
  induction l generalizing base with
  | nil => simp [eventsFrom]
  | cons f rest ih => simp [eventsFrom, ih]

theorem eventsFrom_frame_ids (sid : String) (predict_fn : Frame → List Detection)
    (ts : Nat → String) :
    ∀ (l : List Frame) (base : Nat),
      (eventsFrom sid predict_fn ts base l).map DetectionEvent.frame_id
        = List.range' (base + 1) l.length := by
  intro l
  induction l with
  | nil => intro base; simp [eventsFrom]
  | cons f rest ih =>
      intro base
      simp [eventsFrom, mkLocalEvent, format_detection_event, List.range'_succ, ih]

theorem eventsFrom_session (sid : String) (predict_fn : Frame → List Detection)
    (ts : Nat → String) :
    ∀ (l : List Frame) (base : Nat) (ev : DetectionEvent),
      ev ∈ eventsFrom sid predict_fn ts base l → ev.session_id = some sid := by
  intro l
  induction l with
  | nil => intro base ev h; simp [eventsFrom] at h
  | cons f rest ih =>
      intro base ev h
      simp only [eventsFrom, List.mem_cons] at h
      cases h with
      | inl h => subst h; rfl
      | inr h => exact ih (base + 1) ev h

theorem eventsFrom_frame_id_bounds (sid : String) (predict_fn : Frame → List Detection)
    (ts : Nat → String) :
    ∀ (l : List Frame) (base : Nat) (ev : DetectionEvent),
      ev ∈ eventsFrom sid predict_fn ts base l →
        base < ev.frame_id ∧ ev.frame_id ≤ base + l.length := by
  intro l
  induction l with
  | nil => intro base ev h; simp [eventsFrom] at h
  | cons f rest ih =>
      intro base ev h
      simp only [eventsFrom, List.mem_cons] at h
      cases h with
      | inl h => subst h; simp [mkLocalEvent, format_detection_event]
      | inr h =>
          have := ih (base + 1) ev h
          constructor
          · omega
          · simp only [List.length_cons]; omega

theorem detWritesFrom_shape (sid : String) (predict_fn : Frame → List Detection)
    (ts : Nat → String) :
    ∀ (l : List Frame) (base : Nat) (acc : List DetectionEvent) (op : FsOp),
      op ∈ detWritesFrom sid predict_fn ts base acc l →
        ∃ evs, evs ≠ [] ∧ op = FsOp.truncWrite detections_path sid evs := by
  intro l
  induction l with
  | nil => intro base acc op h; simp [detWritesFrom] at h
  | cons f rest ih =>
      intro base acc op h
      simp only [detWritesFrom, List.mem_cons] at h
      cases h with
      | inl h => exact ⟨_, by simp, h⟩
      | inr h => exact ih (base + 1) _ op h

theorem detWritesFrom_length (sid : String) (predict_fn : Frame → List Detection)
    (ts : Nat → String) :
    ∀ (l : List Frame) (base : Nat) (acc : List DetectionEvent),
      (detWritesFrom sid predict_fn ts base acc l).length = l.length := by
  intro l
  induction l with
  | nil => intro base acc; simp [detWritesFrom]
  | cons f rest ih => intro base acc; simp [detWritesFrom, ih]

theorem detWritesFrom_getLast (sid : String) (predict_fn : Frame → List Detection)
    (ts : Nat → String) :
    ∀ (l : List Frame) (base : Nat) (acc : List DetectionEvent), l ≠ [] →
      (detWritesFrom sid predict_fn ts base acc l).getLast?
        = some (FsOp.truncWrite detections_path sid
            (acc ++ eventsFrom sid predict_fn ts base l)) := by
  intro l
  induction l with
  | nil => intro base acc h; exact absurd rfl h
  | cons f rest ih =>
      intro base acc _
      cases rest with
      | nil => simp [detWritesFrom, eventsFrom]
      | cons g tail =>
          have h2 := ih (base + 1) (acc ++ [mkLocalEvent sid predict_fn ts (base + 1) f])
            (by simp)
          have hne : detWritesFrom sid predict_fn ts (base + 1)
              (acc ++ [mkLocalEvent sid predict_fn ts (base + 1) f]) (g :: tail) ≠ [] := by
            intro hc
            have := congrArg List.length hc
            simp [detWritesFrom_length] at this
          have h3 : detWritesFrom sid predict_fn ts base acc (f :: g :: tail)
              = [FsOp.truncWrite detections_path sid
                    (acc ++ [mkLocalEvent sid predict_fn ts (base + 1) f])]
                ++ detWritesFrom sid predict_fn ts (base + 1)
                    (acc ++ [mkLocalEvent sid predict_fn ts (base + 1) f]) (g :: tail) := rfl
          rw [h3, List.getLast?_append_of_ne_nil _ hne, h2]
          simp [eventsFrom]

theorem fbStep_foldl_spec (predict_fn : Frame → List Detection) (ts : Nat → String)
    (pushResults : Nat → Option String)
    (hpush : ∀ n, (pushResults n).isSome = true) :
    ∀ (l : List Frame) (st : FBRunState),
      (l.foldl (fbStep predict_fn ts pushResults) st).uploader.session_id
          = st.uploader.session_id ∧
      (l.foldl (fbStep predict_fn ts pushResults) st).uploader.frame_count
          = st.uploader.frame_count ∧
      (l.foldl (fbStep predict_fn ts pushResults) st).uploader.total_detections
          = st.uploader.total_detections
            + (l.map (fun f => (predict_fn f).length)).sum ∧
      (l.foldl (fbStep predict_fn ts pushResults) st).frame_count
          = st.frame_count + l.length := by
  intro l
  induction l with
  | nil => intro st; simp
  | cons f rest ih =>
      intro st
      have h := ih (fbStep predict_fn ts pushResults st f)
      have hk := hpush (st.frame_count + 1)
      obtain ⟨key, hkey⟩ := Option.isSome_iff_exists.mp hk
      simp only [List.foldl_cons]
      refine ⟨?_, ?_, ?_, ?_⟩
      · rw [h.1]; simp [fbStep, upload_detection_event, hkey]
      · rw [h.2.1]; simp [fbStep, upload_detection_event, hkey]
      · rw [h.2.2.1]
        simp [fbStep, upload_detection_event, hkey, format_detection_event]
        omega
      · rw [h.2.2.2]; simp [fbStep]; omega

/-! Section: Claim theorems -/

/-- C1: if a job is already running (`running = true`), every
`start_analysis` call returns the AlreadyRunning error and leaves the
stored job state (running flag, session_id, video_name, start_time,
process handle) and the local store completely unchanged, whatever the
request and environment. -/
theorem c1_start_rejected_while_running (st : AnalysisState) (store : LocalStore)
    (video_path : Option String) (fileExists : String → Bool)
    (baseName : String → String) (now : Nat) (nowIso : String)
    (h : st.running = true) :
    start_analysis st store video_path fileExists baseName now nowIso
      = (st, store, StartResult.alreadyRunning) := by
  simp [start_analysis, h]

/-- Witness for C1: a concrete running state with a rejected second
start. -/
theorem c1_start_rejected_while_running_witness :
    exRunningState.running = true ∧
    start_analysis exRunningState exStore (some "b.mp4") (fun _ => true)
        (fun p => p) 200 "t2"
      = (exRunningState, exStore, StartResult.alreadyRunning) :=
  ⟨rfl, c1_start_rejected_while_running exRunningState exStore (some "b.mp4")
    (fun _ => true) (fun p => p) 200 "t2" rfl⟩

/-- C9: `stop_analysis` called when no job is running returns the
`success=False` "No analysis running" reply — never an error — leaves the
state unchanged, and is idempotent. -/
theorem c9_stop_idle (st : AnalysisState) (h : st.running = false) :
    stop_analysis st = (st, StopResult.notStopped) ∧
    stop_analysis (stop_analysis st).1 = (st, StopResult.notStopped) := by
  have h1 : stop_analysis st = (st, StopResult.notStopped) := by
    simp [stop_analysis, h]
  exact ⟨h1, by rw [h1]; exact h1⟩

/-- Witness for C9: stopping a concrete idle controller twice. -/
theorem c9_stop_idle_witness :
    exIdleState.running = false ∧
    stop_analysis exIdleState = (exIdleState, StopResult.notStopped) ∧
    stop_analysis (stop_analysis exIdleState).1
      = (exIdleState, StopResult.notStopped) :=
  ⟨rfl, (c9_stop_idle exIdleState rfl).1, (c9_stop_idle exIdleState rfl).2⟩

/-- C10: the session id `start_analysis` returns to the caller
(`session_` + controller clock) is never the session id the pipeline
worker generates and attaches to the stored events and session record
(`local_` + worker clock in local mode, `inference_` + worker clock in
Firebase mode), for any pair of clock readings. -/
theorem c10_session_id_mismatch (t u : Nat) :
    controllerSessionId t ≠ localSessionId u ∧
    controllerSessionId t ≠ firebaseSessionId u := by
  constructor
  · intro h
    have h2 := congrArg (fun s => s.data.head?) h
    simp [controllerSessionId, localSessionId, String.data_append] at h2
  · intro h
    have h2 := congrArg (fun s => s.data.head?) h
    simp [controllerSessionId, firebaseSessionId, String.data_append] at h2

/-- C5 counterexample: at a concrete valid frame, an internal inference
failure inside `InferenceEngine.predict` propagates as an exception
(`Except.error`), instead of returning the empty detection list the claim
requires. -/
theorem c5_predict_error_cex :
    predict (loadEngine ["Early Blight"]) failingRaw 5 exFrame
        = Except.error "inference failed" ∧
    predict (loadEngine ["Early Blight"]) failingRaw 5 exFrame
        ≠ Except.ok ({ class_names := ["Early Blight"],
                       inference_times := [5] }, []) :=
  ⟨rfl, fun h => nomatch h⟩

/-- C5 (amended): when the underlying model call succeeds and the result
parses, `predict` returns the parsed detections (recording one latency
sample); but when the model call raises, the exception propagates out of
`predict` unchanged — there is no internal catch degrading to an empty
list. -/
theorem c5_predict_propagation :
    (∀ (e : InferenceEngine) (raw : Frame → Except String (List RawBox))
        (lat : Rat) (f : Frame) (msg : String),
        raw f = Except.error msg → predict e raw lat f = Except.error msg) ∧
    (∀ (e : InferenceEngine) (raw : Frame → Except String (List RawBox))
        (lat : Rat) (f : Frame) (boxes : List RawBox) (dets : List Detection),
        raw f = Except.ok boxes →
        parse_results e.class_names boxes = Except.ok dets →
        predict e raw lat f = Except.ok
          ({ class_names := e.class_names,
             inference_times := e.inference_times ++ [lat] }, dets)) := by
  constructor
  · intro e raw lat f msg h
    simp [predict, h]
  · intro e raw lat f boxes dets h1 h2
    simp [predict, h1, h2]

/-- Witness for C5 (amended): the failing and the succeeding path at
concrete inputs. -/
theorem c5_predict_propagation_witness :
    predict (loadEngine ["Early Blight"]) failingRaw 5 exFrame
        = Except.error "inference failed" ∧
    predict (loadEngine ["Early Blight"]) emptyRaw 5 exFrame
        = Except.ok ({ class_names := ["Early Blight"],
                       inference_times := [5] }, []) :=
  ⟨c5_predict_propagation.1 (loadEngine ["Early Blight"]) failingRaw 5 exFrame
      "inference failed" rfl,
   c5_predict_propagation.2 (loadEngine ["Early Blight"]) emptyRaw 5 exFrame
      [] [] rfl rfl⟩

/-- C7: `get_progress` returns `-1` exactly when `total_frames` is not
positive (the live/webcam case, which sets `total_frames = -1`); for a
finite file source whose metadata count matches its stream, after any
number of reads it returns `100 * current_frame / total_frames`, a value
in `[0, 100]`, where `current_frame` counts exactly the successful
`read_frame` calls. -/
theorem c7_progress_contract :
    (∀ v : VideoProcessor, get_progress v = -1 ↔ v.total_frames ≤ 0) ∧
    (∀ stream : List Frame, (openWebcamSource stream).total_frames = -1 ∧
        get_progress (openWebcamSource stream) = -1) ∧
    (∀ (stream : List Frame) (r : Nat), stream ≠ [] →
        (readN r (openFileSource stream (stream.length : Int))).current_frame
            = min r stream.length ∧
        get_progress (readN r (openFileSource stream (stream.length : Int)))
            = 100 * ((readN r (openFileSource stream
                (stream.length : Int))).current_frame : Rat)
              / (stream.length : Rat) ∧
        0 ≤ get_progress (readN r (openFileSource stream (stream.length : Int))) ∧
        get_progress (readN r (openFileSource stream (stream.length : Int))) ≤ 100) := by
  refine ⟨?_, ?_, ?_⟩
  · intro v
    unfold get_progress
    by_cases h : v.total_frames ≤ 0
    · simp [h]
    · simp only [h, if_false, iff_false]
      intro heq
      have ht0 : (0 : Int) < v.total_frames := by omega
      have ht : (0 : Rat) < (v.total_frames : Rat) := by exact_mod_cast ht0
      have hnn : (0 : Rat) ≤ ((v.current_frame : Rat) / (v.total_frames : Rat)) * 100 := by
        positivity
      rw [heq] at hnn
      norm_num at hnn
  · intro stream
    exact ⟨rfl, by simp [get_progress, openWebcamSource]⟩
  · intro stream r hne
    have hlen : 0 < stream.length := List.length_pos.mpr hne
    have hv : readN r (openFileSource stream (stream.length : Int))
        = ⟨some (stream.drop r), (stream.length : Int), 0 + min r stream.length⟩ := by
      rw [show openFileSource stream (stream.length : Int)
            = ⟨some stream, (stream.length : Int), 0⟩ from rfl]
      exact readN_file (stream.length : Int) r stream 0
    rw [hv]
    have hles : ¬((stream.length : Int) ≤ 0) := by omega
    have hl0 : (0 : Rat) < (stream.length : Rat) := by positivity
    have hcast : (((stream.length : Int) : Rat)) = (stream.length : Rat) := by push_cast; rfl
    refine ⟨by simp, ?_, ?_, ?_⟩
    · simp only [get_progress, hles, if_false, hcast]
      ring
    · simp only [get_progress, hles, if_false]
      positivity
    · simp only [get_progress, hles, if_false, hcast]
      have hmle : ((min r stream.length : Nat) : Rat) ≤ (stream.length : Rat) :=
        Nat.cast_le.mpr (min_le_right _ _)
      have hdiv : ((0 + min r stream.length : Nat) : Rat) / (stream.length : Rat) ≤ 1 := by
        rw [div_le_one hl0]
        simp only [Nat.zero_add]
        exact hmle
      calc ((0 + min r stream.length : Nat) : Rat) / (stream.length : Rat) * 100
          ≤ 1 * 100 := by
            exact mul_le_mul_of_nonneg_right hdiv (by norm_num)
        _ = 100 := by norm_num

/-- Witness for C7: two-frame file source after one read: progress is
`100 * 1 / 2 = 50`, inside `[0, 100]`. -/
theorem c7_progress_contract_witness :
    exStream2 ≠ [] ∧
    ((readN 1 (openFileSource exStream2 (exStream2.length : Int))).current_frame
        = min 1 exStream2.length ∧
     get_progress (readN 1 (openFileSource exStream2 (exStream2.length : Int)))
        = 100 * ((readN 1 (openFileSource exStream2
            (exStream2.length : Int))).current_frame : Rat)
          / (exStream2.length : Rat) ∧
     0 ≤ get_progress (readN 1 (openFileSource exStream2 (exStream2.length : Int))) ∧
     get_progress (readN 1 (openFileSource exStream2 (exStream2.length : Int))) ≤ 100) :=
  ⟨by decide, c7_progress_contract.2.2 exStream2 1 (by decide)⟩

/-- C8: `get_fps` is `0` right after model load (the warmup inference
bypasses `predict` and records no latency sample); every successful
`predict` call appends exactly one latency sample; and on any engine with
at least one recorded (positive) sample, `get_fps` equals `1000` divided
by the average latency and is strictly positive. -/
theorem c8_fps_contract :
    (∀ names : List String, get_fps (loadEngine names) = 0) ∧
    (∀ (e : InferenceEngine) (raw : Frame → Except String (List RawBox))
        (lat : Rat) (f : Frame) (e' : InferenceEngine) (dets : List Detection),
        predict e raw lat f = Except.ok (e', dets) →
        e'.inference_times = e.inference_times ++ [lat]) ∧
    (∀ e : InferenceEngine, e.inference_times ≠ [] →
        (∀ x ∈ e.inference_times, 0 < x) →
        get_fps e = 1000 / get_avg_inference_time e ∧ 0 < get_fps e) := by
  refine ⟨?_, ?_, ?_⟩
  · intro names
    simp [get_fps, get_avg_inference_time, loadEngine]
  · intro e raw lat f e' dets h
    cases hr : raw f with
    | error msg => simp [predict, hr] at h
    | ok boxes =>
        cases hp : parse_results e.class_names boxes with
        | error m2 => simp [predict, hr, hp] at h
        | ok ds =>
            simp [predict, hr, hp] at h
            rw [← h.1]
  · intro e hne hpos
    have hsum : 0 < e.inference_times.sum := List.sum_pos _ hpos hne
    have hlen : 0 < e.inference_times.length := List.length_pos.mpr hne
    have havg : 0 < get_avg_inference_time e := by
      simp only [get_avg_inference_time, hne, if_false]
      exact div_pos hsum (by exact_mod_cast hlen)
    have hfps : get_fps e = 1000 / get_avg_inference_time e := by
      simp [get_fps, havg]
    exact ⟨hfps, hfps ▸ div_pos (by norm_num) havg⟩

/-- Witness for C8: a freshly loaded engine reports 0 FPS; one successful
predict with a 5 ms latency yields one sample and `1000 / 5 > 0`. -/
theorem c8_fps_contract_witness :
    get_fps (loadEngine ["Early Blight"]) = 0 ∧
    ({ class_names := ["Early Blight"],
       inference_times := [5] } : InferenceEngine).inference_times
        = (loadEngine ["Early Blight"]).inference_times ++ [5] ∧
    (get_fps { class_names := ["Early Blight"], inference_times := [5] }
        = 1000 / get_avg_inference_time
            { class_names := ["Early Blight"], inference_times := [5] } ∧
     0 < get_fps { class_names := ["Early Blight"], inference_times := [5] }) :=
  ⟨c8_fps_contract.1 ["Early Blight"],
   c8_fps_contract.2.1 (loadEngine ["Early Blight"]) emptyRaw 5 exFrame
     { class_names := ["Early Blight"], inference_times := [5] } [] rfl,
   c8_fps_contract.2.2 { class_names := ["Early Blight"], inference_times := [5] }
     (by decide) (by decide)⟩

/-- C3 counterexample: stopping after frame 4 of the ten-frame source
leaves the durable session file exactly as it was written at job start —
`status = "active"` (not the `"completed"` the claim requires) and
`frame_count = 0` (not 4): the terminated worker never runs its
finalization code. -/
theorem c3_stop_session_cex :
    (localRunStopped "local_1" "t0" "v.mp4" exPredict exTs exStream10 10 4).sessFile
      = some (initialSession "local_1" "t0" "v.mp4") ∧
    (initialSession "local_1" "t0" "v.mp4").status ≠ "completed" ∧
    (initialSession "local_1" "t0" "v.mp4").frame_count ≠ 4 := by
  refine ⟨by decide, by decide, by decide⟩

/-- C3 (amended): `stop_analysis` on a running job with a stored process
handle terminates the worker and clears the running flag, and the
terminated run's durable state contains no event for any frame after the
stop; but the durable session record is NOT finalized — it keeps its
initial content (`status = "active"`, `frame_count = 0`) because the
SIGTERM'd worker never executes the completion code. -/
theorem c3_stop_behavior (sid start_ts vp : String)
    (predict_fn : Frame → List Detection) (ts : Nat → String)
    (stream : List Frame) (meta_total : Int) (k : Nat) (st : AnalysisState)
    (hrun : st.running = true) (hproc : st.process.isSome = true) :
    stop_analysis st = ({ running := false,
                          session_id := st.session_id,
                          video_name := st.video_name,
                          start_time := st.start_time,
                          process := st.process }, StopResult.stopped) ∧
    (localRunStopped sid start_ts vp predict_fn ts stream meta_total k).sessFile
      = some (initialSession sid start_ts vp) ∧
    (localRunStopped sid start_ts vp predict_fn ts stream meta_total k).all_detections
      = eventsFrom sid predict_fn ts 0 (stream.take k) ∧
    (∀ ev ∈ (localRunStopped sid start_ts vp predict_fn ts stream meta_total k).all_detections,
        ev.frame_id ≤ k) := by
  have hstop : stop_analysis st = ({ running := false,
                                     session_id := st.session_id,
                                     video_name := st.video_name,
                                     start_time := st.start_time,
                                     process := st.process }, StopResult.stopped) := by
    simp [stop_analysis, hrun, hproc]
  have hloop : localRunStopped sid start_ts vp predict_fn ts stream meta_total k
      = (stream.take k).foldl (localStep sid predict_fn ts)
          (initLocalState sid start_ts vp) := by
    unfold localRunStopped
    rw [show openFileSource stream meta_total
          = ⟨some stream, meta_total, 0⟩ from rfl]
    exact pipelineLoop_snd (localStep sid predict_fn ts) k stream meta_total 0
      (initLocalState sid start_ts vp)
  have hspec := localStep_foldl_spec sid predict_fn ts (stream.take k)
    (initLocalState sid start_ts vp)
  refine ⟨hstop, ?_, ?_, ?_⟩
  · rw [hloop, hspec.2.2.2.2.1]; rfl
  · rw [hloop, hspec.2.2.1]; rfl
  · intro ev hev
    rw [hloop, hspec.2.2.1] at hev
    simp only [initLocalState, List.nil_append] at hev
    have hb := (eventsFrom_frame_id_bounds sid predict_fn ts (stream.take k) 0 ev hev).2
    have hlt : (stream.take k).length ≤ k := by
      rw [List.length_take]; omega
    omega

/-- Witness for C3 (amended): the concrete stop-after-4-of-10 scenario. -/
theorem c3_stop_behavior_witness :
    stop_analysis exRunningState = ({ running := false,
                                      session_id := exRunningState.session_id,
                                      video_name := exRunningState.video_name,
                                      start_time := exRunningState.start_time,
                                      process := exRunningState.process },
                                    StopResult.stopped) ∧
    (localRunStopped "local_1" "t0" "v.mp4" exPredict exTs exStream10 10 4).sessFile
      = some (initialSession "local_1" "t0" "v.mp4") ∧
    (mkLocalEvent "local_1" exPredict exTs 3
        { height := 480, width := 640, pixels := 2 }).frame_id ≤ 4 :=
  ⟨(c3_stop_behavior "local_1" "t0" "v.mp4" exPredict exTs exStream10 10 4
      exRunningState rfl rfl).1,
   (c3_stop_behavior "local_1" "t0" "v.mp4" exPredict exTs exStream10 10 4
      exRunningState rfl rfl).2.1,
   (c3_stop_behavior "local_1" "t0" "v.mp4" exPredict exTs exStream10 10 4
      exRunningState rfl rfl).2.2.2
     (mkLocalEvent "local_1" exPredict exTs 3
        { height := 480, width := 640, pixels := 2 }) (by decide)⟩

/-- C4: after a local-mode run that pushed one event per frame, reading
the latest-detections endpoint returns exactly the pushed events, in push
order (frame ids 1..N in sequence), every returned event carries
`session_id = sid`, and the file's session key is `sid` whenever at least
one event was pushed. -/
theorem c4_local_sink_roundtrip (sid start_ts end_ts vp : String)
    (predict_fn : Frame → List Detection) (ts : Nat → String)
    (stream : List Frame) (meta_total : Int) :
    (get_detections
        (run_inference_local sid start_ts end_ts vp predict_fn ts stream meta_total).2.detFile).2
      = (run_inference_local sid start_ts end_ts vp predict_fn ts stream meta_total).2.all_detections ∧
    (run_inference_local sid start_ts end_ts vp predict_fn ts stream meta_total).2.all_detections.length
      = stream.length ∧
    (∀ ev ∈ (run_inference_local sid start_ts end_ts vp predict_fn ts stream meta_total).2.all_detections,
        ev.session_id = some sid) ∧
    ((run_inference_local sid start_ts end_ts vp predict_fn ts stream meta_total).2.all_detections.map
        DetectionEvent.frame_id)
      = List.range' 1 stream.length ∧
    (get_detections
        (run_inference_local sid start_ts end_ts vp predict_fn ts stream meta_total).2.detFile).1
      = (if stream = [] then none else some sid) := by
  have hrun : (run_inference_local sid start_ts end_ts vp predict_fn ts stream meta_total).2
      = localFinalize end_ts
          ((pipelineLoop (localStep sid predict_fn ts) (stream.length + 1)
            (openFileSource stream meta_total) (initLocalState sid start_ts vp)).2) := rfl
  have hloop : (pipelineLoop (localStep sid predict_fn ts) (stream.length + 1)
        (openFileSource stream meta_total) (initLocalState sid start_ts vp)).2
      = stream.foldl (localStep sid predict_fn ts) (initLocalState sid start_ts vp) := by
    rw [show openFileSource stream meta_total = ⟨some stream, meta_total, 0⟩ from rfl,
        pipelineLoop_snd, List.take_of_length_le (by omega)]
  have hspec := localStep_foldl_spec sid predict_fn ts stream (initLocalState sid start_ts vp)
  have hall : (run_inference_local sid start_ts end_ts vp predict_fn ts stream meta_total).2.all_detections
      = eventsFrom sid predict_fn ts 0 stream := by
    rw [hrun, hloop]
    show (stream.foldl (localStep sid predict_fn ts) (initLocalState sid start_ts vp)).all_detections
      = eventsFrom sid predict_fn ts 0 stream
    rw [hspec.2.2.1]
    rfl
  have hdet : (run_inference_local sid start_ts end_ts vp predict_fn ts stream meta_total).2.detFile
      = (if stream = [] then none
         else some (sid, (run_inference_local sid start_ts end_ts vp predict_fn ts stream
            meta_total).2.all_detections)) := by
    by_cases hs : stream = []
    · subst hs
      rw [hrun, hloop]
      rfl
    · rw [if_neg hs, hrun, hloop]
      show (stream.foldl (localStep sid predict_fn ts) (initLocalState sid start_ts vp)).detFile
        = some (sid, (localFinalize end_ts
            (stream.foldl (localStep sid predict_fn ts) (initLocalState sid start_ts vp))).all_detections)
      rw [localStep_foldl_detFile sid predict_fn ts stream (initLocalState sid start_ts vp) hs]
      rfl
  refine ⟨?_, ?_, ?_, ?_, ?_⟩
  · rw [hdet]
    by_cases hs : stream = []
    · rw [if_pos hs, hall, hs]
      rfl
    · rw [if_neg hs]
      rfl
  · rw [hall, eventsFrom_length]
  · intro ev hev
    rw [hall] at hev
    exact eventsFrom_session sid predict_fn ts stream 0 ev hev
  · rw [hall, eventsFrom_frame_ids]
  · rw [hdet]
    by_cases hs : stream = []
    · rw [if_pos hs, if_pos hs]; rfl
    · rw [if_neg hs, if_neg hs]; rfl

/-- Witness for C4: the single-frame run — the endpoint returns the pushed
list, and its (pushed) event carries the worker session id. -/
theorem c4_local_sink_roundtrip_witness :
    (get_detections
        (run_inference_local "local_1" "t0" "t1" "v.mp4" exPredict exTs exStream1 1).2.detFile).2
      = (run_inference_local "local_1" "t0" "t1" "v.mp4" exPredict exTs exStream1 1).2.all_detections ∧
    (mkLocalEvent "local_1" exPredict exTs 1
        { height := 480, width := 640, pixels := 2 }).session_id = some "local_1" :=
  ⟨(c4_local_sink_roundtrip "local_1" "t0" "t1" "v.mp4" exPredict exTs exStream1 1).1,
   (c4_local_sink_roundtrip "local_1" "t0" "t1" "v.mp4" exPredict exTs exStream1 1).2.2.1
     (mkLocalEvent "local_1" exPredict exTs 1 { height := 480, width := 640, pixels := 2 })
     (by decide)⟩

/-- C6 counterexample: in a concrete one-frame local run, the (single)
update of the current-detections file is NOT an atomic temp-write-rename
replace — `open(path, 'w')` / `json.dump` truncates and rewrites the
well-known path in place. -/
theorem c6_not_atomic_cex :
    ((run_inference_local "local_1" "t0" "t1" "v.mp4" exPredict exTs exStream1 1).2.detOps.all
        FsOp.isAtomicReplace) = false ∧
    (run_inference_local "local_1" "t0" "t1" "v.mp4" exPredict exTs exStream1 1).2.detOps ≠ [] := by
  exact ⟨by decide, by decide⟩

/-- C6 (amended): every update of the current-detections file is a direct
in-place truncate-and-rewrite of the well-known path carrying the full
current detection list for the session (one update per frame, never a
temp-file-plus-rename); in the sequential model the latest full list is
therefore retrievable at the path after every completed update — the last
write holds exactly the final event list — but no write is an atomic
replace. -/
theorem c6_detections_file_updates (sid start_ts end_ts vp : String)
    (predict_fn : Frame → List Detection) (ts : Nat → String)
    (stream : List Frame) (meta_total : Int) :
    (run_inference_local sid start_ts end_ts vp predict_fn ts stream meta_total).2.detOps.length
      = stream.length ∧
    ((run_inference_local sid start_ts end_ts vp predict_fn ts stream meta_total).2.detOps.all
        (FsOp.isDirectDetWrite sid)) = true ∧
    ((run_inference_local sid start_ts end_ts vp predict_fn ts stream meta_total).2.detOps.getLast?
      = (if stream = [] then none
         else some (FsOp.truncWrite detections_path sid
            (run_inference_local sid start_ts end_ts vp predict_fn ts stream
              meta_total).2.all_detections))) ∧
    ((run_inference_local sid start_ts end_ts vp predict_fn ts stream meta_total).2.detFile
      = (if stream = [] then none
         else some (sid, (run_inference_local sid start_ts end_ts vp predict_fn ts stream
            meta_total).2.all_detections))) := by
  have hrun : (run_inference_local sid start_ts end_ts vp predict_fn ts stream meta_total).2
      = localFinalize end_ts
          ((pipelineLoop (localStep sid predict_fn ts) (stream.length + 1)
            (openFileSource stream meta_total) (initLocalState sid start_ts vp)).2) := rfl
  have hloop : (pipelineLoop (localStep sid predict_fn ts) (stream.length + 1)
        (openFileSource stream meta_total) (initLocalState sid start_ts vp)).2
      = stream.foldl (localStep sid predict_fn ts) (initLocalState sid start_ts vp) := by
    rw [show openFileSource stream meta_total = ⟨some stream, meta_total, 0⟩ from rfl,
        pipelineLoop_snd, List.take_of_length_le (by omega)]
  have hspec := localStep_foldl_spec sid predict_fn ts stream (initLocalState sid start_ts vp)
  have hops : (run_inference_local sid start_ts end_ts vp predict_fn ts stream meta_total).2.detOps
      = detWritesFrom sid predict_fn ts 0 [] stream := by
    rw [hrun, hloop]
    show (stream.foldl (localStep sid predict_fn ts) (initLocalState sid start_ts vp)).detOps
      = detWritesFrom sid predict_fn ts 0 [] stream
    rw [hspec.2.2.2.2.2]
    rfl
  have hall : (run_inference_local sid start_ts end_ts vp predict_fn ts stream meta_total).2.all_detections
      = eventsFrom sid predict_fn ts 0 stream := by
    rw [hrun, hloop]
    show (stream.foldl (localStep sid predict_fn ts) (initLocalState sid start_ts vp)).all_detections
      = eventsFrom sid predict_fn ts 0 stream
    rw [hspec.2.2.1]
    rfl
  have hdet : (run_inference_local sid start_ts end_ts vp predict_fn ts stream meta_total).2.detFile
      = (if stream = [] then none
         else some (sid, (run_inference_local sid start_ts end_ts vp predict_fn ts stream
            meta_total).2.all_detections)) := by
    by_cases hs : stream = []
    · subst hs
      rw [hrun, hloop]
      rfl
    · rw [if_neg hs, hrun, hloop]
      show (stream.foldl (localStep sid predict_fn ts) (initLocalState sid start_ts vp)).detFile
        = some (sid, (localFinalize end_ts
            (stream.foldl (localStep sid predict_fn ts) (initLocalState sid start_ts vp))).all_detections)
      rw [localStep_foldl_detFile sid predict_fn ts stream (initLocalState sid start_ts vp) hs]
      rfl
  refine ⟨?_, ?_, ?_, hdet⟩
  · rw [hops, detWritesFrom_length]
  · rw [hops, List.all_eq_true]
    intro op hop
    obtain ⟨evs, hevs, rfl⟩ := detWritesFrom_shape sid predict_fn ts stream 0 [] op hop
    simp [FsOp.isDirectDetWrite, List.isEmpty_iff, hevs]
  · by_cases hs : stream = []
    · subst hs
      rw [hops]
      rfl
    · rw [if_neg hs, hops, hall,
          detWritesFrom_getLast sid predict_fn ts stream 0 [] hs]
      simp

/-- C2 counterexample: a one-frame Firebase-mode run (every push
succeeding, one detection on that frame) finalizes the durable session
record with `status = "completed"` and the right `total_detections`, but
with `frame_count = 0`, not the 1 frame that was actually read — the
pipeline never calls `upload_frame_summary`, the only place the uploader's
frame counter is incremented. -/
theorem c2_remote_frame_count_cex :
    (run_inference_firebase "inference_1" "t0" "t1" exPredict exTs
        (fun _ => some "k") true exStream1 1).2.status = "completed" ∧
    (run_inference_firebase "inference_1" "t0" "t1" exPredict exTs
        (fun _ => some "k") true exStream1 1).2.total_detections = 1 ∧
    (run_inference_firebase "inference_1" "t0" "t1" exPredict exTs
        (fun _ => some "k") true exStream1 1).2.frame_count = 0 ∧
    (run_inference_firebase "inference_1" "t0" "t1" exPredict exTs
        (fun _ => some "k") true exStream1 1).2.frame_count ≠ exStream1.length := by
  exact ⟨by decide, by decide, by decide, by decide⟩

/-- C2 (amended): after natural source exhaustion the durable session
record has `status = "completed"` and `total_detections` equal to the sum
of per-frame detection counts under both sinks; `frame_count` equals the
number of successfully read frames for the local sink, but for the remote
sink the finalized `frame_count` is always 0 (frame summaries are never
uploaded by the pipeline).  The released video source's `current_frame`
equals the stream length, tying `frame_count` to the number of ok reads. -/
theorem c2_completion_session_record (sid start_ts end_ts vp : String)
    (predict_fn : Frame → List Detection) (ts : Nat → String)
    (stream : List Frame) (meta_total : Int) :
    (run_inference_local sid start_ts end_ts vp predict_fn ts stream meta_total).2.sessFile
      = some { session_id := sid, start_time := start_ts, status := "completed",
               video_path := vp, frame_count := stream.length,
               total_detections := (stream.map (fun f => (predict_fn f).length)).sum,
               end_time := some end_ts } ∧
    (run_inference_local sid start_ts end_ts vp predict_fn ts stream meta_total).1.current_frame
      = stream.length ∧
    (∀ pushResults : Nat → Option String, (∀ n, (pushResults n).isSome = true) →
      (run_inference_firebase sid start_ts end_ts predict_fn ts pushResults true
          stream meta_total).2
        = { session_id := sid, start_time := start_ts, status := "completed",
            frame_count := 0,
            total_detections := (stream.map (fun f => (predict_fn f).length)).sum,
            end_time := some end_ts }) := by
  have hloop : (pipelineLoop (localStep sid predict_fn ts) (stream.length + 1)
        (openFileSource stream meta_total) (initLocalState sid start_ts vp)).2
      = stream.foldl (localStep sid predict_fn ts) (initLocalState sid start_ts vp) := by
    rw [show openFileSource stream meta_total = ⟨some stream, meta_total, 0⟩ from rfl,
        pipelineLoop_snd, List.take_of_length_le (by omega)]
  have hspec := localStep_foldl_spec sid predict_fn ts stream (initLocalState sid start_ts vp)
  refine ⟨?_, ?_, ?_⟩
  · show (localFinalize end_ts
        ((pipelineLoop (localStep sid predict_fn ts) (stream.length + 1)
          (openFileSource stream meta_total) (initLocalState sid start_ts vp)).2)).sessFile
      = _
    rw [hloop]
    simp only [localFinalize, hspec.1, hspec.2.1, hspec.2.2.2.1]
    simp [initLocalState, initialSession]
  · show (release ((pipelineLoop (localStep sid predict_fn ts) (stream.length + 1)
        (openFileSource stream meta_total) (initLocalState sid start_ts vp)).1)).current_frame
      = stream.length
    rw [show openFileSource stream meta_total = ⟨some stream, meta_total, 0⟩ from rfl,
        pipelineLoop_fst]
    show 0 + min (stream.length + 1) stream.length = stream.length
    omega
  · intro pushResults hpush
    have hfloop : (pipelineLoop (fbStep predict_fn ts pushResults) (stream.length + 1)
          (openFileSource stream meta_total)
          { uploader := { session_id := sid, frame_count := 0, total_detections := 0 },
            frame_count := 0, all_events := [] }).2
        = stream.foldl (fbStep predict_fn ts pushResults)
            { uploader := { session_id := sid, frame_count := 0, total_detections := 0 },
              frame_count := 0, all_events := [] } := by
      rw [show openFileSource stream meta_total = ⟨some stream, meta_total, 0⟩ from rfl,
          pipelineLoop_snd, List.take_of_length_le (by omega)]
    have hfspec := fbStep_foldl_spec predict_fn ts pushResults hpush stream
      { uploader := { session_id := sid, frame_count := 0, total_detections := 0 },
        frame_count := 0, all_events := [] }
    show end_session ((pipelineLoop (fbStep predict_fn ts pushResults) (stream.length + 1)
          (openFileSource stream meta_total)
          { uploader := { session_id := sid, frame_count := 0, total_detections := 0 },
            frame_count := 0, all_events := [] }).2).uploader end_ts true
        { session_id := sid, start_time := start_ts, status := "active",
          frame_count := 0, total_detections := 0, end_time := none }
      = _
    rw [hfloop]
    simp only [end_session, if_true]
    rw [hfspec.2.1, hfspec.2.2.1]
    simp

/-- Witness for C2 (amended): the remote-sink part at a concrete ten-frame
run with every push succeeding. -/
theorem c2_completion_session_record_witness :
    (run_inference_firebase "inference_1" "t0" "t1" exPredict exTs
        (fun _ => some "k") true exStream10 10).2
      = { session_id := "inference_1", start_time := "t0", status := "completed",
          frame_count := 0,
          total_detections := (exStream10.map (fun f => (exPredict f).length)).sum,
          end_time := some "t1" } :=
  (c2_completion_session_record "inference_1" "t0" "t1" "v.mp4" exPredict exTs
    exStream10 10).2.2 (fun _ => some "k") (fun _ => rfl)

end AgriSight
